import Mathlib

/-!
Verification of the redis-operator reconciliation core against its design
specification.

The development shallowly embeds the operator's Go source:

* `operator/redisfailover/service/healer.go` — the `RedisFailoverHealer`
  operations (`SetOldestAsMaster`, `SetMasterOnAll`, `NewSentinelMonitor`,
  `RestoreSentinel`, `SetRedisCustomConfig`, `SetSentinelCustomConfig`,
  `MakeMaster`): each is modelled as the exact sequence of redis-client
  commands the Go loop issues, run by a sequential executor that stops at
  the first error, exactly like Go's early-`return` loops.
* `operator/redisfailover/service/generator.go` — `getQuorum`.
* `operator/redisfailover/handler.go` — `Add` (the per-pass stage pipeline)
  and `setRedisFailoverStatus`.
* `operator/redisfailover/ensurer.go` — `Ensure`.

Fallible calls are modelled as `Except String Unit`; the redis client is a
parameter `client : Cmd → Res` so that theorems quantify over every
possible outcome of the node-targeted calls.  Pod lists are the values
returned by `GetStatefulSetPods`; Kubernetes itself is out of scope.
`sort.Slice` with the `CreationTimestamp.Before` comparator is modelled as
`List.insertionSort` over the non-strict timestamp order, which agrees
with it on every list with pairwise-distinct creation times (Go's
`sort.Slice` is unstable, so only that case is determined).
-/

namespace RedisOperator

/-- Result of a fallible Go call: `nil` or an `error`. -/
abbrev Res := Except String Unit

instance : DecidableEq Res := fun a b =>
  match a, b with
  | Except.error e₁, Except.error e₂ =>
    if h : e₁ = e₂ then Decidable.isTrue (by rw [h])
    else Decidable.isFalse (fun hc => by cases hc; exact h rfl)
  | Except.ok (), Except.ok () => Decidable.isTrue rfl
  | Except.error _, Except.ok _ => Decidable.isFalse (fun hc => Except.noConfusion hc)
  | Except.ok _, Except.error _ => Decidable.isFalse (fun hc => Except.noConfusion hc)

/-- The node-targeted commands of the `redis.Client` interface that the
healer issues (`MakeMaster`, `MakeSlaveOf`, `MonitorRedis`,
`ResetSentinel`, `SetCustomSentinelConfig`, `SetCustomRedisConfig`). -/
inductive Cmd where
  | makeMaster (ip password : String)
  | makeSlaveOf (ip masterIP password : String)
  | monitorRedis (ip monitor quorum : String)
  | resetSentinel (ip : String)
  | setCustomSentinelConfig (ip : String) (config : List String)
  | setCustomRedisConfig (ip password : String) (config : List String)
deriving DecidableEq

/-- Sequential execution of calls with Go's early-`return` on error: the
trace of calls actually issued, paired with the overall result.  Each Go
loop of the healer, the `Add` handler and `Ensure` has exactly this shape. -/
def execSeq {α : Type} (run : α → Res) : List α → List α × Res
  | [] => ([], Except.ok ())
  | a :: l =>
    match run a with
    | Except.error e => ([a], Except.error e)
    | Except.ok _ => ((execSeq run l).1.cons a, (execSeq run l).2)

/-- One pod of the redis statefulset, as used by the healer:
`pod.Name`, `pod.Status.PodIP`, `pod.CreationTimestamp`. -/
structure Pod where
  name : String
  podIP : String
  creationTimestamp : Nat
deriving DecidableEq

/-- The comparator underlying `sort.Slice(ssp.Items, ...Before...)`:
non-strict order on creation timestamps. -/
def podLE (a b : Pod) : Prop := a.creationTimestamp ≤ b.creationTimestamp

instance : DecidableRel podLE := fun a b =>
  inferInstanceAs (Decidable (a.creationTimestamp ≤ b.creationTimestamp))

instance : IsTotal Pod podLE :=
  ⟨fun a b => Nat.le_total a.creationTimestamp b.creationTimestamp⟩

instance : IsTrans Pod podLE := ⟨fun _ _ _ hab hbc => Nat.le_trans hab hbc⟩

/-- `sort.Slice(ssp.Items, func(i, j) { items[i].CreationTimestamp.Before(items[j]) })`:
the pod list in ascending creation-time order. -/
def sortPods (pods : List Pod) : List Pod := List.insertionSort podLE pods

/-- The command sequence of the `SetOldestAsMaster` loop over the (sorted)
pod list, threading the `newMasterIP` variable: while it is still `""` the
pod is promoted with `MakeMaster` (and `newMasterIP` becomes its IP),
afterwards each pod gets `MakeSlaveOf(pod.ip, newMasterIP)`. -/
def soamCmds (password : String) : String → List Pod → List Cmd
  | _, [] => []
  | newMasterIP, pod :: rest =>
    if newMasterIP = "" then
      Cmd.makeMaster pod.podIP password :: soamCmds password pod.podIP rest
    else
      Cmd.makeSlaveOf pod.podIP newMasterIP password :: soamCmds password newMasterIP rest

/-- `RedisFailoverHealer.SetOldestAsMaster`: error when no pod exists,
otherwise run the loop commands over the creation-time-sorted pods,
stopping at the first failing call.  `pods` is the list returned by
`GetStatefulSetPods`; `password` is `rf.Spec.Redis.Password`. -/
def SetOldestAsMaster (client : Cmd → Res) (password : String) (pods : List Pod) :
    List Cmd × Res :=
  if pods.length < 1 then ([], Except.error "number of redis pods are 0")
  else execSeq client (soamCmds password "" (sortPods pods))

/-- The command sequence of the `SetMasterOnAll` loop: the pod whose IP is
`masterIP` gets `MakeMaster(masterIP)`, every other pod gets
`MakeSlaveOf(pod.ip, masterIP)`. -/
def smoaCmds (masterIP password : String) (pods : List Pod) : List Cmd :=
  pods.map (fun pod =>
    if pod.podIP = masterIP then Cmd.makeMaster masterIP password
    else Cmd.makeSlaveOf pod.podIP masterIP password)

/-- `RedisFailoverHealer.SetMasterOnAll`: run the loop commands over the
pod list in order, stopping at the first failing call. -/
def SetMasterOnAll (client : Cmd → Res) (masterIP password : String) (pods : List Pod) :
    List Cmd × Res :=
  execSeq client (smoaCmds masterIP password pods)

/-- Go integer division: truncation toward zero (`Int.tdiv`). -/
def goDiv (a b : Int) : Int := Int.tdiv a b

/-- `getQuorum` (generator.go:626): `rf.Spec.Sentinel.Replicas/2 + 1`,
a function of the *declared* sentinel replica count of the spec. -/
def getQuorum (sentinelReplicas : Int) : Int := goDiv sentinelReplicas 2 + 1

/-- Modelled from the spec: the quorum as the specification words it,
`floor(liveSentinelCount/2)+1` over the *live* sentinel count of the pass
(spec.md section 3, "Quorum").  Stated only to be compared with the
code's `getQuorum`. -/
def liveQuorum (liveSentinelCount : Nat) : Nat := liveSentinelCount / 2 + 1

/-- The single command `NewSentinelMonitor` issues:
`MonitorRedis(ip, monitor, strconv.Itoa(int(getQuorum(rf))))`, with the
quorum recomputed from the declared replica count on every call. -/
def newSentinelMonitorCmd (ip monitor : String) (sentinelReplicas : Int) : Cmd :=
  Cmd.monitorRedis ip monitor (toString (getQuorum sentinelReplicas))

/-- `RedisFailoverHealer.MakeMaster`: a single `MakeMaster` client call. -/
def MakeMaster (client : Cmd → Res) (ip password : String) : Res :=
  client (Cmd.makeMaster ip password)

/-- `RedisFailoverHealer.NewSentinelMonitor`. -/
def NewSentinelMonitor (client : Cmd → Res) (ip monitor : String)
    (sentinelReplicas : Int) : Res :=
  client (newSentinelMonitorCmd ip monitor sentinelReplicas)

/-- `RedisFailoverHealer.RestoreSentinel`: a single `ResetSentinel` call. -/
def RestoreSentinel (client : Cmd → Res) (ip : String) : Res :=
  client (Cmd.resetSentinel ip)

/-- `RedisFailoverHealer.SetSentinelCustomConfig`. -/
def SetSentinelCustomConfig (client : Cmd → Res) (ip : String)
    (config : List String) : Res :=
  client (Cmd.setCustomSentinelConfig ip config)

/-- `RedisFailoverHealer.SetRedisCustomConfig`. -/
def SetRedisCustomConfig (client : Cmd → Res) (ip password : String)
    (config : List String) : Res :=
  client (Cmd.setCustomRedisConfig ip password config)

/-- Modelled from the spec: the externally observable per-node state the
redis client commands act on.  The redis client implementation
(`service/redis`) is not part of the sources; its command semantics
follow spec.md sections 4.2 and 6: each command *sets* the addressed
node's role, monitor target, cached peer state or config to a value
determined by the command alone. -/
structure NodeState where
  isMaster : Bool
  slaveOf : Option String
  monitoredMaster : Option (String × String)
  cachedPeers : Nat
  redisConfig : List String
  sentinelConfig : List String
deriving DecidableEq

/-- All node states, addressed by IP. -/
abbrev World := String → NodeState

/-- Modelled from the spec: the effect of one redis-client command on the
node world (spec.md section 6, NodeClient command contract). -/
def applyCmd (s : World) : Cmd → World
  | Cmd.makeMaster ip _ =>
    Function.update s ip { s ip with isMaster := true, slaveOf := none }
  | Cmd.makeSlaveOf ip m _ =>
    Function.update s ip { s ip with isMaster := false, slaveOf := some m }
  | Cmd.monitorRedis ip monitor q =>
    Function.update s ip { s ip with monitoredMaster := some (monitor, q) }
  | Cmd.resetSentinel ip =>
    Function.update s ip { s ip with cachedPeers := 0 }
  | Cmd.setCustomSentinelConfig ip cfg =>
    Function.update s ip { s ip with sentinelConfig := cfg }
  | Cmd.setCustomRedisConfig ip _ cfg =>
    Function.update s ip { s ip with redisConfig := cfg }

/-- The addressed node already has the state the command would establish:
the node is converged with respect to this command. -/
def ConvergedFor (s : World) : Cmd → Prop
  | Cmd.makeMaster ip _ => (s ip).isMaster = true ∧ (s ip).slaveOf = none
  | Cmd.makeSlaveOf ip m _ => (s ip).isMaster = false ∧ (s ip).slaveOf = some m
  | Cmd.monitorRedis ip monitor q => (s ip).monitoredMaster = some (monitor, q)
  | Cmd.resetSentinel ip => (s ip).cachedPeers = 0
  | Cmd.setCustomSentinelConfig ip cfg => (s ip).sentinelConfig = cfg
  | Cmd.setCustomRedisConfig ip _ cfg => (s ip).redisConfig = cfg

instance (s : World) (c : Cmd) : Decidable (ConvergedFor s c) :=
  match c with
  | Cmd.makeMaster ip _ =>
    inferInstanceAs (Decidable ((s ip).isMaster = true ∧ (s ip).slaveOf = none))
  | Cmd.makeSlaveOf ip m _ =>
    inferInstanceAs (Decidable ((s ip).isMaster = false ∧ (s ip).slaveOf = some m))
  | Cmd.monitorRedis ip monitor q =>
    inferInstanceAs (Decidable ((s ip).monitoredMaster = some (monitor, q)))
  | Cmd.resetSentinel ip => inferInstanceAs (Decidable ((s ip).cachedPeers = 0))
  | Cmd.setCustomSentinelConfig ip cfg =>
    inferInstanceAs (Decidable ((s ip).sentinelConfig = cfg))
  | Cmd.setCustomRedisConfig ip _ cfg =>
    inferInstanceAs (Decidable ((s ip).redisConfig = cfg))

/-- Run a command sequence against the node world. -/
def runCmdsW (s : World) (l : List Cmd) : World := l.foldl applyCmd s

/-- `MakeMaster` under the spec-modelled command semantics. -/
def MakeMasterW (s : World) (ip password : String) : World × Res :=
  (applyCmd s (Cmd.makeMaster ip password), Except.ok ())

/-- `SetOldestAsMaster` under the spec-modelled command semantics. -/
def SetOldestAsMasterW (s : World) (password : String) (pods : List Pod) :
    World × Res :=
  if pods.length < 1 then (s, Except.error "number of redis pods are 0")
  else (runCmdsW s (soamCmds password "" (sortPods pods)), Except.ok ())

/-- `SetMasterOnAll` under the spec-modelled command semantics. -/
def SetMasterOnAllW (s : World) (masterIP password : String) (pods : List Pod) :
    World × Res :=
  (runCmdsW s (smoaCmds masterIP password pods), Except.ok ())

/-- `NewSentinelMonitor` under the spec-modelled command semantics. -/
def NewSentinelMonitorW (s : World) (ip monitor : String) (sentinelReplicas : Int) :
    World × Res :=
  (applyCmd s (newSentinelMonitorCmd ip monitor sentinelReplicas), Except.ok ())

/-- `RestoreSentinel` under the spec-modelled command semantics. -/
def RestoreSentinelW (s : World) (ip : String) : World × Res :=
  (applyCmd s (Cmd.resetSentinel ip), Except.ok ())

/-- `SetSentinelCustomConfig` under the spec-modelled command semantics. -/
def SetSentinelCustomConfigW (s : World) (ip : String) (config : List String) :
    World × Res :=
  (applyCmd s (Cmd.setCustomSentinelConfig ip config), Except.ok ())

/-- `SetRedisCustomConfig` under the spec-modelled command semantics. -/
def SetRedisCustomConfigW (s : World) (ip password : String) (config : List String) :
    World × Res :=
  (applyCmd s (Cmd.setCustomRedisConfig ip password config), Except.ok ())

/-- Modelled from the spec: `RedisFailover.Validate` (the CRD validation
in `api/redisfailover/v1`, not among the sources).  Spec.md section 7:
"ValidationError — desired spec fails semantic checks (e.g., non-positive
replica count)". -/
def rfValidate (redisReplicas sentinelReplicas : Int) : Res :=
  if redisReplicas ≤ 0 then
    Except.error "number of redis in spec is less than the minimum"
  else if sentinelReplicas ≤ 0 then
    Except.error "number of sentinels in spec is less than the minimum"
  else Except.ok ()

/-- `RedisNode` of the CRD status (`zz_generated.deepcopy.go` types file):
`{PodIP, HostIP, IsMaster}`. -/
structure RedisNode where
  podIP : String
  hostIP : String
  isMaster : Bool
deriving DecidableEq

/-- `SentinelNode` of the CRD status: `{PodIP, HostIP}`. -/
structure SentinelNode where
  podIP : String
  hostIP : String
deriving DecidableEq

/-- `RedisFailoverStatus`: the persisted cluster status. -/
structure RedisFailoverStatus where
  redisNodes : List RedisNode
  sentinelNodes : List SentinelNode
deriving DecidableEq

/-- `RedisFailoverHandler.setRedisFailoverStatus` (handler, lines 243-253):
ask the checker for the fresh redis node list
(`rfChecker.GetRedisesIPandHostIPs`), on failure return the wrapped error,
on success assign `rf.Status.RedisNodes` and update the resource.  The
returned value is the status written by `UpdateRedisFailovers`.  Note the
`SentinelNodes` field is left exactly as it was. -/
def setRedisFailoverStatus (ns name : String)
    (checkerRedisNodes : Except String (List RedisNode))
    (status : RedisFailoverStatus) : Except String RedisFailoverStatus :=
  match checkerRedisNodes with
  | Except.error _ =>
    Except.error ("Get redisfailover status for " ++ ns ++ ":" ++ name ++ " failed.")
  | Except.ok redisNodes => Except.ok { status with redisNodes := redisNodes }

/-- The stages of one reconciliation pass, in the order `Add` runs them. -/
inductive Stage where
  | validate
  | ensure
  | checkAndHeal
  | setStatus
deriving DecidableEq

/-- The outcome each stage of a pass would produce if reached. -/
structure PassStages where
  validate : Res
  ensure : Res
  checkAndHeal : Res
  updateStatus : Res

/-- Look up a stage's outcome. -/
def stageResult (ps : PassStages) : Stage → Res
  | Stage.validate => ps.validate
  | Stage.ensure => ps.ensure
  | Stage.checkAndHeal => ps.checkAndHeal
  | Stage.setStatus => ps.updateStatus

/-- The fixed stage order of `RedisFailoverHandler.Add`. -/
def addStageOrder : List Stage :=
  [Stage.validate, Stage.ensure, Stage.checkAndHeal, Stage.setStatus]

/-- `RedisFailoverHandler.Add` (handler, lines 179-214), after the runtime
type check on the received object: `rf.Validate()`, `r.Ensure(...)`,
`r.CheckAndHeal(rf)`, `r.setRedisFailoverStatus(rf)`, each early-returning
its error.  The result pairs the stages actually executed with the
returned error, abstracting the metrics side calls. -/
def Add (ps : PassStages) : List Stage × Res :=
  execSeq (stageResult ps) addStageOrder

/-- The managed objects `Ensure` handles. -/
inductive EnsureKind where
  | redisService
  | notPresentRedisService
  | sentinelService
  | sentinelConfigMap
  | redisShutdownConfigMap
  | redisConfigMap
  | redisStatefulset
  | sentinelDeployment
deriving DecidableEq

/-- The outcome each `rfService.Ensure*` call would produce if reached. -/
structure EnsureOps where
  redisService : Res
  notPresentRedisService : Res
  sentinelService : Res
  sentinelConfigMap : Res
  redisShutdownConfigMap : Res
  redisConfigMap : Res
  redisStatefulset : Res
  sentinelDeployment : Res

/-- Look up one ensure call's outcome. -/
def ensureResult (ops : EnsureOps) : EnsureKind → Res
  | EnsureKind.redisService => ops.redisService
  | EnsureKind.notPresentRedisService => ops.notPresentRedisService
  | EnsureKind.sentinelService => ops.sentinelService
  | EnsureKind.sentinelConfigMap => ops.sentinelConfigMap
  | EnsureKind.redisShutdownConfigMap => ops.redisShutdownConfigMap
  | EnsureKind.redisConfigMap => ops.redisConfigMap
  | EnsureKind.redisStatefulset => ops.redisStatefulset
  | EnsureKind.sentinelDeployment => ops.sentinelDeployment

/-- The call order of `RedisFailoverHandler.Ensure` (ensurer.go): the redis
service branch decided by `rf.Spec.Redis.Exporter.Enabled`, then the six
unconditional ensure calls. -/
def ensureOrder (exporterEnabled : Bool) : List EnsureKind :=
  (if exporterEnabled then EnsureKind.redisService
   else EnsureKind.notPresentRedisService) ::
    [EnsureKind.sentinelService, EnsureKind.sentinelConfigMap,
     EnsureKind.redisShutdownConfigMap, EnsureKind.redisConfigMap,
     EnsureKind.redisStatefulset, EnsureKind.sentinelDeployment]

/-- `RedisFailoverHandler.Ensure`: run the ensure calls in their fixed
order, early-returning the first error. -/
def Ensure (ops : EnsureOps) (exporterEnabled : Bool) : List EnsureKind × Res :=
  execSeq (ensureResult ops) (ensureOrder exporterEnabled)

/-- A client on which every call succeeds. -/
def allOkClient : Cmd → Res := fun _ => Except.ok ()

/-- Concrete pod created at time 1 (witness data). -/
def podT1 : Pod := { name := "rfr-1", podIP := "10.0.0.11", creationTimestamp := 1 }

/-- Concrete pod created at time 2 (witness data). -/
def podT2 : Pod := { name := "rfr-2", podIP := "10.0.0.12", creationTimestamp := 2 }

/-- Concrete pod created at time 3 (witness data). -/
def podT3 : Pod := { name := "rfr-3", podIP := "10.0.0.13", creationTimestamp := 3 }

/-- A client that fails exactly on one re-point call (witness data). -/
def failSlaveClient : Cmd → Res := fun c =>
  if c = Cmd.makeSlaveOf "10.0.0.12" "10.0.0.11" "pw" then
    Except.error "connection refused"
  else Except.ok ()

/-- A fully converged node (witness data): master, no replication source,
monitoring the resolved master with quorum 2, reset peer cache, declared
configs applied. -/
def wNode : NodeState :=
  { isMaster := true, slaveOf := none,
    monitoredMaster := some ("10.0.0.1:6379", "2"), cachedPeers := 0,
    redisConfig := ["maxmemory 0"],
    sentinelConfig := ["down-after-milliseconds 5000"] }

/-- A world in which every node is `wNode` (witness data). -/
def wWorld : World := fun _ => wNode

/-- The single pod of the converged witness world. -/
def wPod : Pod := { name := "rfr-0", podIP := "10.0.0.1", creationTimestamp := 5 }

/-- Every ensure call succeeding (witness data). -/
def opsAllOk : EnsureOps :=
  { redisService := Except.ok (), notPresentRedisService := Except.ok (),
    sentinelService := Except.ok (), sentinelConfigMap := Except.ok (),
    redisShutdownConfigMap := Except.ok (), redisConfigMap := Except.ok (),
    redisStatefulset := Except.ok (), sentinelDeployment := Except.ok () }

/-! ### Helper lemmas -/

/-- When every call succeeds, the sequential executor issues the whole
list and reports success. -/
theorem execSeq_all_ok {α : Type} (run : α → Res) (l : List α)
    (h : ∀ a ∈ l, run a = Except.ok ()) : execSeq run l = (l, Except.ok ()) := by
  induction l with
  | nil => rfl
  | cons a t ih =>
    have ha := h a (List.mem_cons_self a t)
    have ht := ih (fun b hb => h b (List.mem_cons_of_mem a hb))
    simp [execSeq, ha, ht]

/-- The sequential executor stops at the first failing call and returns
exactly its error. -/
theorem execSeq_stops {α : Type} (run : α → Res) :
    ∀ (l₁ : List α) (c : α) (l₂ : List α) (e : String),
      (∀ b ∈ l₁, run b = Except.ok ()) → run c = Except.error e →
      execSeq run (l₁ ++ c :: l₂) = (l₁ ++ [c], Except.error e) := by
  intro l₁
  induction l₁ with
  | nil =>
    intro c l₂ e _ hc
    simp [execSeq, hc]
  | cons a t ih =>
    intro c l₂ e h₁ hc
    have ha := h₁ a (List.mem_cons_self a t)
    have ht := ih c l₂ e (fun b hb => h₁ b (List.mem_cons_of_mem a hb)) hc
    simp [execSeq, ha, ht]

/-- Every call in the trace comes from the input list. -/
theorem execSeq_mem {α : Type} {run : α → Res} :
    ∀ {l : List α} {b : α}, b ∈ (execSeq run l).1 → b ∈ l := by
  intro l
  induction l with
  | nil =>
    intro b hb
    simp [execSeq] at hb
  | cons a t ih =>
    intro b hb
    unfold execSeq at hb
    split at hb
    · simp at hb
      simp [hb]
    · simp at hb
      rcases hb with hb | hb
      · simp [hb]
      · exact List.mem_cons_of_mem a (ih hb)

/-- The first call of a nonempty input list is always issued. -/
theorem execSeq_head_mem {α : Type} (run : α → Res) (a : α) (l : List α) :
    a ∈ (execSeq run (a :: l)).1 := by
  unfold execSeq
  split <;> simp

/-- Once `newMasterIP` is a nonempty IP, the `SetOldestAsMaster` loop only
issues `MakeSlaveOf` toward it. -/
theorem soamCmds_of_ne (password m : String) (hm : m ≠ "") :
    ∀ l : List Pod,
      soamCmds password m l = l.map (fun q => Cmd.makeSlaveOf q.podIP m password) := by
  intro l
  induction l with
  | nil => rfl
  | cons q t ih => simp [soamCmds, hm, ih]

/-- If `p` is the strictly earliest-created pod of the list, sorting by
creation time puts `p` first, followed by a permutation of the rest. -/
theorem sortPods_min {pods : List Pod} {p : Pod} (hp : p ∈ pods)
    (hmin : ∀ q ∈ pods, q ≠ p → p.creationTimestamp < q.creationTimestamp) :
    ∃ rest, sortPods pods = p :: rest ∧ List.Perm rest (pods.erase p) := by
  have hperm : List.Perm (sortPods pods) pods := List.perm_insertionSort podLE pods
  have hsorted : List.Sorted podLE (sortPods pods) := List.sorted_insertionSort podLE pods
  have hpmem : p ∈ sortPods pods := hperm.mem_iff.mpr hp
  cases hs : sortPods pods with
  | nil =>
    rw [hs] at hpmem
    exact absurd hpmem (List.not_mem_nil p)
  | cons h t =>
    rw [hs] at hperm hsorted hpmem
    have hhead : h = p := by
      by_contra hne
      have hhp : h ∈ pods := hperm.mem_iff.mp (List.mem_cons_self h t)
      have hlt : p.creationTimestamp < h.creationTimestamp := hmin h hhp hne
      have hpt : p ∈ t := by
        rcases List.mem_cons.mp hpmem with h1 | h1
        · exact absurd h1.symm hne
        · exact h1
      have hle : podLE h p := (List.sorted_cons.mp hsorted).1 p hpt
      have : ¬ h.creationTimestamp ≤ p.creationTimestamp := Nat.not_le.mpr hlt
      exact this hle
    subst hhead
    exact ⟨t, rfl, (List.cons_perm_iff_perm_erase.mp hperm).2⟩

/-- A command against a converged node changes nothing. -/
theorem applyCmd_of_converged {s : World} {c : Cmd} (h : ConvergedFor s c) :
    applyCmd s c = s := by
  cases c with
  | makeMaster ip password =>
    obtain ⟨h1, h2⟩ := h
    show Function.update s ip { s ip with isMaster := true, slaveOf := none } = s
    have he : { s ip with isMaster := true, slaveOf := none } = s ip := by
      rw [← h1, ← h2]
    rw [he, Function.update_eq_self]
  | makeSlaveOf ip m password =>
    obtain ⟨h1, h2⟩ := h
    show Function.update s ip { s ip with isMaster := false, slaveOf := some m } = s
    have he : { s ip with isMaster := false, slaveOf := some m } = s ip := by
      rw [← h1, ← h2]
    rw [he, Function.update_eq_self]
  | monitorRedis ip monitor q =>
    show Function.update s ip { s ip with monitoredMaster := some (monitor, q) } = s
    have he : { s ip with monitoredMaster := some (monitor, q) } = s ip := by
      rw [← h]
    rw [he, Function.update_eq_self]
  | resetSentinel ip =>
    show Function.update s ip { s ip with cachedPeers := 0 } = s
    have he : { s ip with cachedPeers := 0 } = s ip := by
      rw [← h]
    rw [he, Function.update_eq_self]
  | setCustomSentinelConfig ip cfg =>
    show Function.update s ip { s ip with sentinelConfig := cfg } = s
    have he : { s ip with sentinelConfig := cfg } = s ip := by
      rw [← h]
    rw [he, Function.update_eq_self]
  | setCustomRedisConfig ip password cfg =>
    show Function.update s ip { s ip with redisConfig := cfg } = s
    have he : { s ip with redisConfig := cfg } = s ip := by
      rw [← h]
    rw [he, Function.update_eq_self]

/-- A command sequence against fully converged nodes changes nothing. -/
theorem runCmdsW_of_converged {s : World} :
    ∀ {l : List Cmd}, (∀ c ∈ l, ConvergedFor s c) → runCmdsW s l = s := by
  intro l
  induction l with
  | nil => intro _; rfl
  | cons c t ih =>
    intro h
    unfold runCmdsW at ih ⊢
    rw [List.foldl_cons, applyCmd_of_converged (h c (List.mem_cons_self c t))]
    exact ih (fun b hb => h b (List.mem_cons_of_mem c hb))

/-- A nonempty pod list never takes the `len < 1` error branch. -/
theorem length_not_lt_one {pods : List Pod} (h : pods ≠ []) :
    ¬ pods.length < 1 := by
  intro hl
  exact h (List.length_eq_zero.mp (Nat.lt_one_iff.mp hl))

/-! ### Claim theorems -/

/-- Claim C3: for every non-empty list of live redis pods with a strictly
earliest-created pod `p` (its IP nonempty, all calls succeeding),
`SetOldestAsMaster` sorts the pods by creation time ascending, issues
`MakeMaster` to exactly `p`, and issues `MakeSlaveOf` with `p`'s IP to
every other pod of the list in the same pass. -/
theorem setOldestAsMaster_promotes_earliest (client : Cmd → Res) (password : String)
    (pods : List Pod) (p : Pod) (hp : p ∈ pods)
    (hmin : ∀ q ∈ pods, q ≠ p → p.creationTimestamp < q.creationTimestamp)
    (hip : p.podIP ≠ "") (hok : ∀ c, client c = Except.ok ()) :
    ∃ rest, sortPods pods = p :: rest ∧ List.Perm rest (pods.erase p) ∧
      SetOldestAsMaster client password pods =
        (Cmd.makeMaster p.podIP password ::
          rest.map (fun q => Cmd.makeSlaveOf q.podIP p.podIP password), Except.ok ()) := by
  obtain ⟨rest, hsort, hperm⟩ := sortPods_min hp hmin
  refine ⟨rest, hsort, hperm, ?_⟩
  have hlen := length_not_lt_one (List.ne_nil_of_mem hp)
  unfold SetOldestAsMaster
  rw [if_neg hlen, hsort]
  have hcmds : soamCmds password "" (p :: rest) =
      Cmd.makeMaster p.podIP password ::
        rest.map (fun q => Cmd.makeSlaveOf q.podIP p.podIP password) := by
    rw [soamCmds, if_pos rfl, soamCmds_of_ne password p.podIP hip rest]
  rw [hcmds]
  exact execSeq_all_ok client _ (fun c _ => hok c)

/-- Witness for C3, with the spec's concrete tie-break instance: pods in
creation order `[t2, t1, t3]` with `t1 < t2 < t3`; `SetOldestAsMaster`
selects the pod created at `t1` and re-points the other two to it. -/
theorem setOldestAsMaster_promotes_earliest_witness :
    podT1 ∈ [podT2, podT1, podT3] ∧
    (∀ q ∈ [podT2, podT1, podT3], q ≠ podT1 →
      podT1.creationTimestamp < q.creationTimestamp) ∧
    podT1.podIP ≠ "" ∧
    (∃ rest, sortPods [podT2, podT1, podT3] = podT1 :: rest ∧
      List.Perm rest ([podT2, podT1, podT3].erase podT1) ∧
      SetOldestAsMaster allOkClient "pw" [podT2, podT1, podT3] =
        (Cmd.makeMaster podT1.podIP "pw" ::
          rest.map (fun q => Cmd.makeSlaveOf q.podIP podT1.podIP "pw"), Except.ok ())) :=
  ⟨by decide, by decide, by decide,
    setOldestAsMaster_promotes_earliest allOkClient "pw" [podT2, podT1, podT3] podT1
      (by decide) (by decide) (by decide) (fun c => rfl)⟩

/-- Claim C4: for every pod list and `masterIP`, when all calls succeed,
`SetMasterOnAll` issues `MakeMaster(masterIP)` for the pod whose IP equals
`masterIP` and `MakeSlaveOf(masterIP)` to every other pod, so every pod
other than the one at `masterIP` is re-pointed to follow `masterIP`. -/
theorem setMasterOnAll_repoints_all (client : Cmd → Res) (masterIP password : String)
    (pods : List Pod) (hok : ∀ c, client c = Except.ok ()) :
    SetMasterOnAll client masterIP password pods =
      (pods.map (fun pod =>
        if pod.podIP = masterIP then Cmd.makeMaster masterIP password
        else Cmd.makeSlaveOf pod.podIP masterIP password), Except.ok ()) ∧
    (∀ pod ∈ pods, pod.podIP ≠ masterIP →
      Cmd.makeSlaveOf pod.podIP masterIP password ∈
        (SetMasterOnAll client masterIP password pods).1) ∧
    (∀ pod ∈ pods, pod.podIP = masterIP →
      Cmd.makeMaster masterIP password ∈
        (SetMasterOnAll client masterIP password pods).1) := by
  have hmain : SetMasterOnAll client masterIP password pods =
      (pods.map (fun pod =>
        if pod.podIP = masterIP then Cmd.makeMaster masterIP password
        else Cmd.makeSlaveOf pod.podIP masterIP password), Except.ok ()) := by
    unfold SetMasterOnAll smoaCmds
    exact execSeq_all_ok client _ (fun c _ => hok c)
  refine ⟨hmain, ?_, ?_⟩
  · intro pod hpod hne
    rw [hmain]
    exact List.mem_map.mpr ⟨pod, hpod, by rw [if_neg hne]⟩
  · intro pod hpod heq
    rw [hmain]
    exact List.mem_map.mpr ⟨pod, hpod, by rw [if_pos heq]⟩

/-- Witness for C4 at a concrete two-pod cluster: the pod at the master IP
is re-asserted master, the other pod is re-pointed to it. -/
theorem setMasterOnAll_repoints_all_witness :
    (∀ c, allOkClient c = Except.ok ()) ∧
    SetMasterOnAll allOkClient "10.0.0.11" "pw" [podT1, podT2] =
      ([podT1, podT2].map (fun pod =>
        if pod.podIP = "10.0.0.11" then Cmd.makeMaster "10.0.0.11" "pw"
        else Cmd.makeSlaveOf pod.podIP "10.0.0.11" "pw"), Except.ok ()) :=
  ⟨fun _ => rfl,
    (setMasterOnAll_repoints_all allOkClient "10.0.0.11" "pw" [podT1, podT2]
      (fun _ => rfl)).1⟩

/-- Claim C6: in `SetOldestAsMaster` and `SetMasterOnAll`, every
node-targeted command's error is surfaced: when the calls before some
command succeed and that command fails, the operation stops there and
returns exactly that error — no later node's result replaces it. -/
theorem heal_ops_surface_errors (client : Cmd → Res) (password masterIP : String)
    (pods : List Pod) (l₁ : List Cmd) (c : Cmd) (l₂ : List Cmd) (e : String)
    (hok : ∀ b ∈ l₁, client b = Except.ok ())
    (herr : client c = Except.error e) :
    (pods ≠ [] →
      soamCmds password "" (sortPods pods) = l₁ ++ c :: l₂ →
      SetOldestAsMaster client password pods = (l₁ ++ [c], Except.error e)) ∧
    (smoaCmds masterIP password pods = l₁ ++ c :: l₂ →
      SetMasterOnAll client masterIP password pods = (l₁ ++ [c], Except.error e)) := by
  constructor
  · intro hnil hcm
    unfold SetOldestAsMaster
    rw [if_neg (length_not_lt_one hnil), hcm]
    exact execSeq_stops client l₁ c l₂ e hok herr
  · intro hcm
    unfold SetMasterOnAll
    rw [hcm]
    exact execSeq_stops client l₁ c l₂ e hok herr

/-- Witness for C6: with a two-pod cluster whose re-point call fails, the
failing `MakeSlaveOf` error is returned by `SetOldestAsMaster`. -/
theorem heal_ops_surface_errors_witness :
    (∀ b ∈ [Cmd.makeMaster "10.0.0.11" "pw"], failSlaveClient b = Except.ok ()) ∧
    failSlaveClient (Cmd.makeSlaveOf "10.0.0.12" "10.0.0.11" "pw") =
      Except.error "connection refused" ∧
    ([podT1, podT2] ≠ ([] : List Pod)) ∧
    soamCmds "pw" "" (sortPods [podT1, podT2]) =
      [Cmd.makeMaster "10.0.0.11" "pw"] ++
        Cmd.makeSlaveOf "10.0.0.12" "10.0.0.11" "pw" :: [] ∧
    SetOldestAsMaster failSlaveClient "pw" [podT1, podT2] =
      ([Cmd.makeMaster "10.0.0.11" "pw"] ++ [Cmd.makeSlaveOf "10.0.0.12" "10.0.0.11" "pw"],
        Except.error "connection refused") :=
  ⟨by decide, by decide, by decide, by decide,
    (heal_ops_surface_errors failSlaveClient "pw" "10.0.0.1" [podT1, podT2]
      [Cmd.makeMaster "10.0.0.11" "pw"] (Cmd.makeSlaveOf "10.0.0.12" "10.0.0.11" "pw")
      [] "connection refused" (by decide) (by decide)).1 (by decide) (by decide)⟩

/-- Claim C9: when the list of live redis pods is empty,
`SetOldestAsMaster` returns the "number of redis pods are 0" error and
issues no node command at all. -/
theorem setOldestAsMaster_empty_pods (client : Cmd → Res) (password : String) :
    SetOldestAsMaster client password [] =
      ([], Except.error "number of redis pods are 0") := rfl

/-- Claim C1 counterexample: the quorum the operator passes to a sentinel
via `NewSentinelMonitor` is `getQuorum`, a function of the *declared*
sentinel replica count `rf.Spec.Sentinel.Replicas` alone — it does not
depend on the live sentinel count of the pass.  In a pass where the
declared count is 3 but only one sentinel is live (sentinels can be down,
spec.md section 7 "NodeUnreachable"), the operator passes quorum 2 while
the claim requires `floor(1/2)+1 = 1`. -/
theorem quorum_live_count_counterexample :
    getQuorum 3 = 2 ∧ liveQuorum 1 = 1 ∧
    getQuorum 3 ≠ ((liveQuorum 1 : Nat) : Int) ∧
    newSentinelMonitorCmd "10.0.0.5" "mymaster" 3 ≠
      Cmd.monitorRedis "10.0.0.5" "mymaster" (toString ((liveQuorum 1 : Nat) : Int)) := by
  refine ⟨by decide, by decide, by decide, ?_⟩
  intro hc
  cases hc

/-- Claim C1 as amended: for every pass, the quorum value the operator
derives and passes to a sentinel via `NewSentinelMonitor` equals
`floor(declaredSentinelReplicas/2)+1`, computed from the spec's declared
sentinel replica count; it is recomputed on each call and never persisted
(the command string is a pure function of the declared count).  For a
declared count N in {1,2,3,5} this yields {1,2,2,3}. -/
theorem quorum_from_declared_replicas (ip monitor : String) (n : Int) :
    newSentinelMonitorCmd ip monitor n =
      Cmd.monitorRedis ip monitor (toString (goDiv n 2 + 1)) ∧
    getQuorum 1 = 1 ∧ getQuorum 2 = 2 ∧ getQuorum 3 = 2 ∧ getQuorum 5 = 3 :=
  ⟨rfl, by decide, by decide, by decide, by decide⟩

/-- Claim C2 counterexample: the status written by
`setRedisFailoverStatus` carries the *previous* status's sentinel list
unchanged — here a stale sentinel entry survives even though the pass
recomputed nothing about sentinels — so the claim that both node-view
lists are recomputed and replaced wholesale fails. -/
theorem status_sentinel_not_recomputed_counterexample :
    setRedisFailoverStatus "ns" "rf"
        (Except.ok [{ podIP := "10.0.0.1", hostIP := "node-b", isMaster := true }])
        { redisNodes := [],
          sentinelNodes := [{ podIP := "10.0.0.9", hostIP := "node-a" }] } =
      Except.ok
        { redisNodes := [{ podIP := "10.0.0.1", hostIP := "node-b", isMaster := true }],
          sentinelNodes := [{ podIP := "10.0.0.9", hostIP := "node-a" }] } ∧
    ([{ podIP := "10.0.0.9", hostIP := "node-a" }] : List SentinelNode) ≠ [] :=
  ⟨rfl, by decide⟩

/-- Claim C2 as amended: at the persist-status stage of every successful
pass, the reconciler recomputes the full *redis* node-view list and writes
it as the new status's `RedisNodes`, replacing the previous redis list
wholesale; the `SentinelNodes` field is not recomputed — the previous
status's sentinel list is carried over unchanged.  When the checker fails,
no status is produced and the wrapped error is returned. -/
theorem setRedisFailoverStatus_replaces_redis_list (ns name : String)
    (fresh : List RedisNode) (st : RedisFailoverStatus) :
    setRedisFailoverStatus ns name (Except.ok fresh) st =
      Except.ok { redisNodes := fresh, sentinelNodes := st.sentinelNodes } ∧
    ∀ e, setRedisFailoverStatus ns name (Except.error e) st =
      Except.error ("Get redisfailover status for " ++ ns ++ ":" ++ name ++ " failed.") :=
  ⟨rfl, fun _ => rfl⟩

/-- Claim C5: one pass executes its stages strictly in order — Validate,
Ensure, CheckAndHeal, status write — and a failure at any stage returns
that stage's error and skips every remaining stage; a validation failure
aborts before Ensure (only the validate stage ran, so no side effects were
created), and the status stage runs exactly when all preceding stages
succeeded. -/
theorem add_runs_stages_in_order (ps : PassStages) :
    (∀ e, ps.validate = Except.error e →
      Add ps = ([Stage.validate], Except.error e)) ∧
    (∀ e, ps.validate = Except.ok () → ps.ensure = Except.error e →
      Add ps = ([Stage.validate, Stage.ensure], Except.error e)) ∧
    (∀ e, ps.validate = Except.ok () → ps.ensure = Except.ok () →
      ps.checkAndHeal = Except.error e →
      Add ps = ([Stage.validate, Stage.ensure, Stage.checkAndHeal], Except.error e)) ∧
    (∀ e, ps.validate = Except.ok () → ps.ensure = Except.ok () →
      ps.checkAndHeal = Except.ok () → ps.updateStatus = Except.error e →
      Add ps = (addStageOrder, Except.error e)) ∧
    (ps.validate = Except.ok () → ps.ensure = Except.ok () →
      ps.checkAndHeal = Except.ok () → ps.updateStatus = Except.ok () →
      Add ps = (addStageOrder, Except.ok ())) ∧
    (Stage.setStatus ∈ (Add ps).1 ↔
      ps.validate = Except.ok () ∧ ps.ensure = Except.ok () ∧
        ps.checkAndHeal = Except.ok ()) := by
  obtain ⟨v, en, ch, us⟩ := ps
  cases v <;> cases en <;> cases ch <;> cases us <;>
    simp [Add, execSeq, stageResult, addStageOrder]

/-- Witness for C5: a pass whose spec fails validation aborts with only
the validate stage executed. -/
theorem add_runs_stages_in_order_witness :
    Add { validate := Except.error "spec invalid", ensure := Except.ok (),
          checkAndHeal := Except.ok (), updateStatus := Except.ok () } =
      ([Stage.validate], Except.error "spec invalid") :=
  (add_runs_stages_in_order _).1 "spec invalid" rfl

/-- Claim C7: every heal operation is idempotent — re-invoking it against
already-converged nodes (each command it would issue finds its target
already in the commanded state) produces no state change and no error,
under the spec-modelled redis-client command semantics. -/
theorem heal_ops_idempotent (s : World) (ip monitor password : String) (n : Int)
    (pods : List Pod) (masterIP : String) (cfgS cfgR : List String) :
    (ConvergedFor s (Cmd.makeMaster ip password) →
      MakeMasterW s ip password = (s, Except.ok ())) ∧
    (pods ≠ [] →
      (∀ c ∈ soamCmds password "" (sortPods pods), ConvergedFor s c) →
      SetOldestAsMasterW s password pods = (s, Except.ok ())) ∧
    ((∀ c ∈ smoaCmds masterIP password pods, ConvergedFor s c) →
      SetMasterOnAllW s masterIP password pods = (s, Except.ok ())) ∧
    (ConvergedFor s (newSentinelMonitorCmd ip monitor n) →
      NewSentinelMonitorW s ip monitor n = (s, Except.ok ())) ∧
    (ConvergedFor s (Cmd.resetSentinel ip) →
      RestoreSentinelW s ip = (s, Except.ok ())) ∧
    (ConvergedFor s (Cmd.setCustomSentinelConfig ip cfgS) →
      SetSentinelCustomConfigW s ip cfgS = (s, Except.ok ())) ∧
    (ConvergedFor s (Cmd.setCustomRedisConfig ip password cfgR) →
      SetRedisCustomConfigW s ip password cfgR = (s, Except.ok ())) := by
  refine ⟨?_, ?_, ?_, ?_, ?_, ?_, ?_⟩
  · intro h
    unfold MakeMasterW
    rw [applyCmd_of_converged h]
  · intro hnil hconv
    unfold SetOldestAsMasterW
    rw [if_neg (length_not_lt_one hnil), runCmdsW_of_converged hconv]
  · intro hconv
    unfold SetMasterOnAllW
    rw [runCmdsW_of_converged hconv]
  · intro h
    unfold NewSentinelMonitorW
    rw [applyCmd_of_converged h]
  · intro h
    unfold RestoreSentinelW
    rw [applyCmd_of_converged h]
  · intro h
    unfold SetSentinelCustomConfigW
    rw [applyCmd_of_converged h]
  · intro h
    unfold SetRedisCustomConfigW
    rw [applyCmd_of_converged h]

/-- Witness for C7: a fully converged one-node cluster; every heal
operation leaves the world unchanged and reports success. -/
theorem heal_ops_idempotent_witness :
    ConvergedFor wWorld (Cmd.makeMaster "10.0.0.1" "pw") ∧
    MakeMasterW wWorld "10.0.0.1" "pw" = (wWorld, Except.ok ()) ∧
    ([wPod] ≠ ([] : List Pod)) ∧
    (∀ c ∈ soamCmds "pw" "" (sortPods [wPod]), ConvergedFor wWorld c) ∧
    SetOldestAsMasterW wWorld "pw" [wPod] = (wWorld, Except.ok ()) ∧
    (∀ c ∈ smoaCmds "10.0.0.1" "pw" [wPod], ConvergedFor wWorld c) ∧
    SetMasterOnAllW wWorld "10.0.0.1" "pw" [wPod] = (wWorld, Except.ok ()) ∧
    ConvergedFor wWorld (newSentinelMonitorCmd "10.0.0.1" "10.0.0.1:6379" 3) ∧
    NewSentinelMonitorW wWorld "10.0.0.1" "10.0.0.1:6379" 3 = (wWorld, Except.ok ()) ∧
    ConvergedFor wWorld (Cmd.resetSentinel "10.0.0.1") ∧
    RestoreSentinelW wWorld "10.0.0.1" = (wWorld, Except.ok ()) ∧
    ConvergedFor wWorld
      (Cmd.setCustomSentinelConfig "10.0.0.1" ["down-after-milliseconds 5000"]) ∧
    SetSentinelCustomConfigW wWorld "10.0.0.1" ["down-after-milliseconds 5000"] =
      (wWorld, Except.ok ()) ∧
    ConvergedFor wWorld (Cmd.setCustomRedisConfig "10.0.0.1" "pw" ["maxmemory 0"]) ∧
    SetRedisCustomConfigW wWorld "10.0.0.1" "pw" ["maxmemory 0"] =
      (wWorld, Except.ok ()) := by
  have h := heal_ops_idempotent wWorld "10.0.0.1" "10.0.0.1:6379" "pw" 3 [wPod]
    "10.0.0.1" ["down-after-milliseconds 5000"] ["maxmemory 0"]
  exact ⟨by decide, h.1 (by decide), by decide, by decide,
    h.2.1 (by decide) (by decide), by decide, h.2.2.1 (by decide), by decide,
    h.2.2.2.1 (by decide), by decide, h.2.2.2.2.1 (by decide), by decide,
    h.2.2.2.2.2.1 (by decide), by decide, h.2.2.2.2.2.2 (by decide)⟩

/-- Claim C8: for every cluster instance that passes validation, the
derived quorum satisfies `quorum ≥ 1`, and every `NewSentinelMonitor`
call passes exactly that derived value. -/
theorem quorum_ge_one (redisReplicas sentinelReplicas : Int)
    (h : rfValidate redisReplicas sentinelReplicas = Except.ok ()) :
    1 ≤ getQuorum sentinelReplicas ∧
    ∀ ip monitor, newSentinelMonitorCmd ip monitor sentinelReplicas =
      Cmd.monitorRedis ip monitor (toString (getQuorum sentinelReplicas)) := by
  have hs : 0 < sentinelReplicas := by
    unfold rfValidate at h
    by_cases h1 : redisReplicas ≤ 0
    · rw [if_pos h1] at h
      simp at h
    · rw [if_neg h1] at h
      by_cases h2 : sentinelReplicas ≤ 0
      · rw [if_pos h2] at h
        simp at h
      · exact not_le.mp h2
  constructor
  · obtain ⟨n, hn⟩ : ∃ m : Nat, sentinelReplicas = (m : Int) :=
      ⟨sentinelReplicas.toNat, (Int.toNat_of_nonneg hs.le).symm⟩
    rw [hn]
    unfold getQuorum
    have hdiv : goDiv (n : Int) 2 = ((n / 2 : Nat) : Int) := rfl
    rw [hdiv]
    omega
  · intro ip monitor
    rfl

/-- Witness for C8 at declared replica counts (3, 3). -/
theorem quorum_ge_one_witness :
    rfValidate 3 3 = Except.ok () ∧
    (1 ≤ getQuorum 3 ∧
      ∀ ip monitor, newSentinelMonitorCmd ip monitor 3 =
        Cmd.monitorRedis ip monitor (toString (getQuorum 3))) :=
  ⟨by decide, quorum_ge_one 3 3 (by decide)⟩

/-- Claim C10: `Ensure` handles the redis service exactly when the
exporter is enabled (and the ensure-not-present call exactly when it is
disabled); all other managed objects — sentinel service, sentinel config
map, redis shutdown config map, redis config map, redis statefulset,
sentinel deployment — are ensured unconditionally in that fixed order,
stopping at the first error. -/
theorem ensure_exporter_and_order (ops : EnsureOps) (exporterEnabled : Bool) :
    (EnsureKind.redisService ∈ (Ensure ops exporterEnabled).1 ↔ exporterEnabled = true) ∧
    (EnsureKind.notPresentRedisService ∈ (Ensure ops exporterEnabled).1 ↔
      exporterEnabled = false) ∧
    ((∀ k ∈ ensureOrder exporterEnabled, ensureResult ops k = Except.ok ()) →
      Ensure ops exporterEnabled = (ensureOrder exporterEnabled, Except.ok ())) ∧
    (∀ l₁ k l₂ e, ensureOrder exporterEnabled = l₁ ++ k :: l₂ →
      (∀ b ∈ l₁, ensureResult ops b = Except.ok ()) →
      ensureResult ops k = Except.error e →
      Ensure ops exporterEnabled = (l₁ ++ [k], Except.error e)) := by
  refine ⟨?_, ?_, ?_, ?_⟩
  · constructor
    · intro h
      have hmem : EnsureKind.redisService ∈ ensureOrder exporterEnabled := execSeq_mem h
      cases exporterEnabled
      · exact absurd hmem (by decide)
      · rfl
    · intro h
      subst h
      exact execSeq_head_mem (ensureResult ops) EnsureKind.redisService _
  · constructor
    · intro h
      have hmem : EnsureKind.notPresentRedisService ∈ ensureOrder exporterEnabled :=
        execSeq_mem h
      cases exporterEnabled
      · rfl
      · exact absurd hmem (by decide)
    · intro h
      subst h
      exact execSeq_head_mem (ensureResult ops) EnsureKind.notPresentRedisService _
  · intro h
    exact execSeq_all_ok (ensureResult ops) _ h
  · intro l₁ k l₂ e horder hok herr
    unfold Ensure
    rw [horder]
    exact execSeq_stops (ensureResult ops) l₁ k l₂ e hok herr

/-- Witness for C10: with the exporter enabled and every ensure call
succeeding, the full fixed order is executed. -/
theorem ensure_exporter_and_order_witness :
    (∀ k ∈ ensureOrder true, ensureResult opsAllOk k = Except.ok ()) ∧
    Ensure opsAllOk true = (ensureOrder true, Except.ok ()) :=
  ⟨by decide, (ensure_exporter_and_order opsAllOk true).2.2.1 (by decide)⟩

end RedisOperator
